import Mathlib

/-
Shallow embedding of the FIT-protocol decoder of `activityio`
(src/activityio/fit/_protocol.py, plus the base-type registry of
src/scripts/make_fit_profile/BASE_TYPES.py and the filtering stage of
src/activityio/fit/_reading.py).

Bytes are modelled as natural numbers below 256; the byte stream of a
file is a `List Nat`.  Machine integers decoded from the stream are
`Int` with explicit two-complement conversion.  Python floats produced
by `struct.unpack` are kept as their raw IEEE-754 bit patterns, since
the decoder only ever tests them for NaN; numeric results of the
scale/offset normalisation are modelled as rationals (the concrete
values exercised by the claims are exactly representable).  Fallible
Python code (struct.error, ValueError, KeyError, the custom protocol
errors) is modelled with `Except FitError`.
-/

set_option autoImplicit false

namespace ActivityFit

/-- Little-endian interpretation of a byte list (base 256, first byte least
significant), as performed by `struct.unpack` with the `<` prefix. -/
def bytesToNatLE : List Nat → Nat
  | [] => 0
  | b :: bs => b + 256 * bytesToNatLE bs

/-- Big-endian interpretation of a byte list, as performed by `struct.unpack`
with the `>` prefix. -/
def bytesToNatBE (bs : List Nat) : Nat :=
  bytesToNatLE bs.reverse

/-- Two-complement reinterpretation of an unsigned `width`-byte value, as done
by the signed struct format characters `b`, `h`, `i`. -/
def toSigned (width : Nat) (n : Nat) : Int :=
  if n < 2 ^ (8 * width - 1) then (n : Int) else (n : Int) - 2 ^ (8 * width)

/-- A Python value flowing through the decoder: integers unpacked from the
stream, byte strings (both raw undecoded field bytes and string-typed field
values are `bytes` in the source), floats kept as IEEE bit patterns, catalog
label strings, and rationals produced by the scale/offset normalisation.
`floatOp` records a scale/offset application to a float symbolically; no claim
depends on floating-point arithmetic. -/
inductive Value where
  | int (i : Int)
  | bytes (bs : List Nat)
  | float (wide : Bool) (bits : Nat)
  | label (s : String)
  | num (q : Rat)
  | floatOp (wide : Bool) (bits : Nat) (scale offset : Rat)
deriving DecidableEq, Repr

/-- The `isinstance(field_value, bytes)` test of the source. -/
def Value.isBytes : Value → Bool
  | .bytes _ => true
  | _ => false

/-- Python equality between decoder values.  Integers and rationals compare
numerically (Python `1 == 1.0`); floats are compared by bit pattern, which is
adequate here because no claim compares floats across representations. -/
def pythonEq : Value → Value → Bool
  | .int i, .int j => i == j
  | .int i, .num q => (i : Rat) == q
  | .num q, .int i => q == (i : Rat)
  | .num q, .num r => q == r
  | .label s, .label t => s == t
  | .bytes a, .bytes b => a == b
  | .float w a, .float w' b => w == w' && a == b
  | _, _ => false

/-- struct format characters used by the base-type registry. -/
inductive FmtChar where
  | B | b | H | h | I | i | s | f | d
deriving DecidableEq, Repr

/-- `struct.calcsize` of a single format character. -/
def FmtChar.width : FmtChar → Nat
  | .B => 1
  | .b => 1
  | .H => 2
  | .h => 2
  | .I => 4
  | .i => 4
  | .s => 1
  | .f => 4
  | .d => 8

/-- `struct.calcsize` of a counted format such as `2H` or `5s`: for the string
format the count is a byte length, otherwise a repetition count. -/
def calcsizeFmt (count : Nat) (c : FmtChar) : Nat :=
  match c with
  | .s => count
  | _ => count * c.width

/-- NaN test on a 32-bit IEEE-754 bit pattern (exponent all ones, nonzero
mantissa); this is `math.isnan` applied to the unpacked float. -/
def isNanBits32 (bits : Nat) : Bool :=
  ((bits / 2 ^ 23) % 2 ^ 8 == 255) && (bits % 2 ^ 23 != 0)

/-- NaN test on a 64-bit IEEE-754 bit pattern. -/
def isNanBits64 (bits : Nat) : Bool :=
  ((bits / 2 ^ 52) % 2 ^ 11 == 2047) && (bits % 2 ^ 52 != 0)

/-- A FIT base type: name, type identifier byte, struct format character and
the validity-checking `parse` lambda, mirroring `BaseType` of
BASE_TYPES.py. -/
structure BaseType where
  name : String
  identifier : Nat
  fmt : FmtChar
  parse : Value → Option Value

/-- `struct.calcsize(self.fmt)`. -/
def BaseType.size (bt : BaseType) : Nat :=
  bt.fmt.width

/-- Builds the `lambda x: None if x == S else x` parse used by all integer
base types (the sentinel is compared against the unpacked integer). -/
def mkIntSentinel (nm : String) (idByte : Nat) (fm : FmtChar) (sentinel : Int) :
    BaseType :=
  { name := nm, identifier := idByte, fmt := fm,
    parse := fun v =>
      match v with
      | .int i => if i = sentinel then none else some (.int i)
      | v => some v }

/-- `BASE_TYPE_BYTE`: the untyped fallback, `lambda x: None if x == 0xFF else
x`. -/
def BASE_TYPE_BYTE : BaseType :=
  mkIntSentinel "byte" 0x0D .B 255

/-- The string base type: `lambda x: x.split(b'\x00')[0] or None`, keeping the
prefix before the first NUL and mapping an empty result to absent. -/
def stringBaseType : BaseType :=
  { name := "string", identifier := 0x07, fmt := .s,
    parse := fun v =>
      match v with
      | .bytes bs =>
          let pre := bs.takeWhile (fun b => b ≠ 0)
          if pre = [] then none else some (.bytes pre)
      | v => some v }

/-- A float base type: `lambda x: None if isnan(x) else x`. -/
def mkFloatType (nm : String) (idByte : Nat) (fm : FmtChar) : BaseType :=
  { name := nm, identifier := idByte, fmt := fm,
    parse := fun v =>
      match v with
      | .float w bits =>
          if (if w then isNanBits64 bits else isNanBits32 bits) then none
          else some (.float w bits)
      | v => some v }

/-- The `BASE_TYPES` registry of BASE_TYPES.py, keyed by the base type byte of
a field definition. -/
def BASE_TYPES : List (Nat × BaseType) :=
  [ (0x00, mkIntSentinel "enum" 0x00 .B 255),
    (0x01, mkIntSentinel "sint8" 0x01 .b 127),
    (0x02, mkIntSentinel "uint8" 0x02 .B 255),
    (0x83, mkIntSentinel "sint16" 0x83 .h 32767),
    (0x84, mkIntSentinel "uint16" 0x84 .H 65535),
    (0x85, mkIntSentinel "sint32" 0x85 .i 2147483647),
    (0x86, mkIntSentinel "uint32" 0x86 .I 4294967295),
    (0x07, stringBaseType),
    (0x88, mkFloatType "float32" 0x88 .f),
    (0x89, mkFloatType "float64" 0x89 .d),
    (0x0A, mkIntSentinel "uint8z" 0x0A .B 0),
    (0x8B, mkIntSentinel "uint16z" 0x8B .H 0),
    (0x8C, mkIntSentinel "uint32z" 0x8C .I 0),
    (0x0D, BASE_TYPE_BYTE) ]

/-- `BASE_TYPES_BY_NAME = {bt.name: bt for bt in BASE_TYPES.values()}`. -/
def BASE_TYPES_BY_NAME : List (String × BaseType) :=
  BASE_TYPES.map (fun p => (p.2.name, p.2))

/-- One subfield row of the external catalog (the generated `_profile`
module).  `field_name` and `ref_field_name` are accessed by direct key lookup
in the source and are always present in the profile rows used for dynamic
resolution, so they are mandatory here; `field_type` names the type declared
for the subfield in the profile and is never read by the decoder. -/
structure SubfieldData where
  field_name : String
  field_type : Option String
  ref_field_name : String
  ref_field_value : List Value
  units : Option String
deriving Repr

/-- Catalog metadata for one field of a message type (a value of the
`MESSAGE_TYPES` dictionary); every key is optional because the generated
profile drops empty cells (`remove_empty`). -/
structure FieldData where
  field_name : Option String
  units : Option String
  scale : Option Rat
  offset : Option Rat
  subfields : Option (List (String × SubfieldData))
deriving Repr

/-- `EMPTY_DICT`: the entry used when a field number is missing from the
catalog. -/
def FieldData.empty : FieldData :=
  { field_name := none, units := none, scale := none, offset := none,
    subfields := none }

/-- A message type: the field-number → metadata dictionary. -/
def MessageType := List (Nat × FieldData)

/-- The external catalog: the three lookup tables imported from the generated
`_profile` module.  `TYPES_INFO` maps an enumerated field name to its numeric
code → label dictionary. -/
structure Catalog where
  GLOBAL_MESG_NUMS : List (Nat × String)
  MESSAGE_TYPES : List (String × MessageType)
  TYPES_INFO : List (String × List (Int × String))

/-- Errors raised by the decoder: the two protocol-specific exception classes,
`InvalidFileError`, and the builtin exceptions that can escape the modelled
code paths. -/
inductive FitError where
  | MessageHeaderError (msg : String)
  | FileHeaderError (msg : String)
  | InvalidFileError
  | StructError
  | ValueError (msg : String)
  | KeyError
  | PyError (msg : String)
deriving DecidableEq, Repr

/-- Decidable equality for `Except` results, used to evaluate the embedding
on concrete inputs. -/
instance {ε α : Type} [DecidableEq ε] [DecidableEq α] :
    DecidableEq (Except ε α) := fun a b =>
  match a, b with
  | .error e, .error e' =>
      if h : e = e' then .isTrue (by rw [h]) else .isFalse (by simp [h])
  | .ok v, .ok v' =>
      if h : v = v' then .isTrue (by rw [h]) else .isFalse (by simp [h])
  | .error _, .ok _ => .isFalse (by simp)
  | .ok _, .error _ => .isFalse (by simp)

/-- A parsed field definition (`FieldDefinition.__init__`): `is_dynamic` and
`name` are stored attributes (not recomputed), because `update` overwrites
`name` and `base_type` in place during dynamic-subfield resolution.
`bigEndian` models the stored `endian` character (`>` iff true). -/
structure FieldDefinition where
  size : Nat
  base_type : BaseType
  data : FieldData
  is_dynamic : Bool
  name : String
  bigEndian : Bool

/-- `n_bytes`: `self.size // self.base_type.size`. -/
def FieldDefinition.n_bytes (fd : FieldDefinition) : Nat :=
  fd.size / fd.base_type.size

/-- A parsed definition message.  `local_message_type` comes from the message
header under which the definition was read. -/
structure DefinitionMessage where
  local_message_type : Nat
  name : String
  type : MessageType
  field_defs : List FieldDefinition

/-- The `FitFile` cursor: the remaining bytes of the open reader, the
`bytes_left` counter (an integer: the source decrements it without any
bound check) and the `local_messages` slot dictionary. -/
structure FitFile where
  stream : List Nat
  bytes_left : Int
  local_messages : List (Nat × DefinitionMessage)

/-- `FitFile.__init__`: `bytes_left` starts at 0 and the slot table empty. -/
def FitFile.init (stream : List Nat) : FitFile :=
  { stream := stream, bytes_left := 0, local_messages := [] }

/-- `FitFile.read`: returns the next `n` bytes (fewer at end of file, like the
underlying reader) and decrements `bytes_left` by `n` unconditionally. -/
def fitRead (n : Nat) (ff : FitFile) : List Nat × FitFile :=
  (ff.stream.take n,
   { ff with stream := ff.stream.drop n, bytes_left := ff.bytes_left - n })

/-- `FitFile.skip_bytes`: seeks forward, decrementing `bytes_left`. -/
def fitSkip (n : Nat) (ff : FitFile) : FitFile :=
  { ff with stream := ff.stream.drop n, bytes_left := ff.bytes_left - n }

/-- Dictionary assignment `fitfile.local_messages[slot] = dm`: the previous
occupant of the slot is wholly replaced. -/
def insertSlot (slot : Nat) (dm : DefinitionMessage)
    (l : List (Nat × DefinitionMessage)) : List (Nat × DefinitionMessage) :=
  (slot, dm) :: l.filter (fun p => p.1 ≠ slot)

/-- Splits a byte list into `count` chunks of `w` bytes, as `struct.unpack`
does for a format character repeated `count` times (the buffer length is
checked to be exactly `count * w` before this runs). -/
def chunkBytes : Nat → Nat → List Nat → List (List Nat)
  | 0, _, _ => []
  | count + 1, w, bs => bs.take w :: chunkBytes count w (bs.drop w)

/-- Unpacks one chunk of bytes under a single format character and the given
endianness. -/
def unpackChunk (big : Bool) (c : FmtChar) (chunk : List Nat) : Value :=
  let uval : Nat := if big then bytesToNatBE chunk else bytesToNatLE chunk
  match c with
  | .B => .int uval
  | .b => .int (toSigned 1 uval)
  | .H => .int uval
  | .h => .int (toSigned 2 uval)
  | .I => .int uval
  | .i => .int (toSigned 4 uval)
  | .f => .float false uval
  | .d => .float true uval
  | .s => .bytes chunk

/-- `struct.unpack(fmt, raw)` for a counted single-character format: checks
that the buffer length equals `calcsize(fmt)` (raising `struct.error`
otherwise) and produces the tuple of unpacked values; the string format yields
one byte-string value. -/
def structUnpack (big : Bool) (count : Nat) (c : FmtChar) (raw : List Nat) :
    Except FitError (List Value) :=
  if raw.length ≠ calcsizeFmt count c then .error .StructError
  else
    match c with
    | .s => .ok [.bytes raw]
    | _ => .ok ((chunkBytes count c.width raw).map (unpackChunk big c))

/-- `FieldDefinition.read` on an existing buffer (the `raw is not None`
branch): unpack under `self.fmt`, keep the first value (`value, *ignore`),
and apply the validity check `self.base_type.parse`.  An empty unpacked tuple
raises `ValueError` as the starred assignment would. -/
def FieldDefinition.readRaw (fd : FieldDefinition) (raw : List Nat) :
    Except FitError (Option Value) :=
  match structUnpack fd.bigEndian fd.n_bytes fd.base_type.fmt raw with
  | .error e => .error e
  | .ok [] => .error (.ValueError "not enough values to unpack")
  | .ok (v :: _) => .ok (fd.base_type.parse v)

/-- `FieldDefinition.read(fitfile)` (the file-reading mode): reads
`self.size` bytes; a dynamic field keeps the raw bytes for later, any other
field is unpacked and validity-checked (`none` here is the Python `None` for
an invalid value). -/
def FieldDefinition.readFile (fd : FieldDefinition) (ff : FitFile) :
    Except FitError (Option Value × FitFile) :=
  let (raw, ff') := fitRead fd.size ff
  if fd.is_dynamic then .ok (some (.bytes raw), ff')
  else
    match fd.readRaw raw with
    | .error e => .error e
    | .ok ov => .ok (ov, ff')

/-- `FieldDefinition.__init__`: reads the three single-byte cells of a field
definition (`unpack('<3B', ...)`, which raises `struct.error` when fewer than
three bytes remain), resolves the base type with fallback to `BASE_TYPE_BYTE`,
and looks the field number up in the message type with fallback to the empty
entry. -/
def readFieldDef (mtype : MessageType) (big : Bool) (ff : FitFile) :
    Except FitError (FieldDefinition × FitFile) :=
  let (three, ff') := fitRead 3 ff
  match three with
  | [def_num, size, base_type_num] =>
      let bt := (List.lookup base_type_num BASE_TYPES).getD BASE_TYPE_BYTE
      let data := (List.lookup def_num mtype).getD FieldData.empty
      .ok ({ size := size, base_type := bt, data := data,
             is_dynamic := data.subfields.isSome,
             name := data.field_name.getD "unknown",
             bigEndian := big }, ff')
  | _ => .error .StructError

/-- The field-definition list comprehension of `DefinitionMessage.__init__`,
reading `field_count` definitions in order. -/
def readFieldDefs (mtype : MessageType) (big : Bool) :
    Nat → FitFile → Except FitError (List FieldDefinition × FitFile)
  | 0, ff => .ok ([], ff)
  | n + 1, ff =>
      match readFieldDef mtype big ff with
      | .error e => .error e
      | .ok (fd, ff') =>
          match readFieldDefs mtype big n ff' with
          | .error e => .error e
          | .ok (fds, ff'') => .ok (fd :: fds, ff'')

/-- `DefinitionMessage.__init__`: reserved byte ignored, architecture byte
(any nonzero value selects big-endian), 2-byte global message number decoded
under that endianness, 1-byte field count, then the field definitions.  The
completed definition message is stored into the local slot, overwriting any
prior occupant. -/
def readDefinitionMessage (cat : Catalog) (slot : Nat) (ff : FitFile) :
    Except FitError (DefinitionMessage × FitFile) :=
  let (two, ff₁) := fitRead 2 ff
  match two with
  | [_, arch] =>
      let big := arch ≠ 0
      let (three, ff₂) := fitRead 3 ff₁
      match three with
      | [g0, g1, field_count] =>
          let gnum := if big then bytesToNatBE [g0, g1] else bytesToNatLE [g0, g1]
          let name := (List.lookup gnum cat.GLOBAL_MESG_NUMS).getD "unknown"
          let mtype := (List.lookup name cat.MESSAGE_TYPES).getD []
          match readFieldDefs mtype big field_count ff₂ with
          | .error e => .error e
          | .ok (fds, ff₃) =>
              let dm : DefinitionMessage :=
                { local_message_type := slot, name := name, type := mtype,
                  field_defs := fds }
              .ok (dm, { ff₃ with
                          local_messages :=
                            insertSlot slot dm ff₃.local_messages })
      | _ => .error .StructError
  | _ => .error .StructError

/-- A decoded data message.  `field_defs` are the very `FieldDefinition`
objects of the active definition message (the source aliases them), restricted
to the fields whose values parsed as valid. -/
structure DataMessage where
  local_message_type : Nat
  time_offset : Option Nat
  name : String
  field_defs : List FieldDefinition
  field_values : List Value

/-- The `[field.read(fitfile) for field in field_defs]` comprehension of
`DataMessage.__init__`. -/
def readFields : List FieldDefinition → FitFile →
    Except FitError (List (Option Value) × FitFile)
  | [], ff => .ok ([], ff)
  | fd :: fds, ff =>
      match fd.readFile ff with
      | .error e => .error e
      | .ok (ov, ff') =>
          match readFields fds ff' with
          | .error e => .error e
          | .ok (ovs, ff'') => .ok (ov :: ovs, ff'')

/-- `DataMessage.__init__`: looks up the active definition for the local slot
(raising `MessageHeaderError` when the slot was never defined), reads every
field, and keeps only the fields whose value is valid (not `None`). -/
def readDataMessage (slot : Nat) (toff : Option Nat) (ff : FitFile) :
    Except FitError (DataMessage × FitFile) :=
  match List.lookup slot ff.local_messages with
  | none =>
      .error (.MessageHeaderError
        ("invalid local message type (" ++ toString slot ++ ")"))
  | some dm =>
      match readFields dm.field_defs ff with
      | .error e => .error e
      | .ok (ovs, ff') =>
          let pairs := (dm.field_defs.zip ovs).filterMap
            (fun p => p.2.map (fun v => (p.1, v)))
          .ok ({ local_message_type := slot, time_offset := toff,
                 name := dm.name,
                 field_defs := pairs.map (fun p => p.1),
                 field_values := pairs.map (fun p => p.2) }, ff')

/-- `apply_scale_offset`: `field_value / scale - offset` with catalog defaults
`scale = 1`, `offset = 0`.  For floats the operation is recorded symbolically
unless it is the identity; byte strings and labels never reach this function
in the source (its callers branch them away first). -/
def apply_scale_offset (fd : FieldDefinition) (v : Value) : Value :=
  let scale := fd.data.scale.getD 1
  let offset := fd.data.offset.getD 0
  match v with
  | .int i => .num ((i : Rat) / scale - offset)
  | .num q => .num (q / scale - offset)
  | .float w bits =>
      if scale == 1 && offset == 0 then .float w bits
      else .floatOp w bits scale offset
  | v => v

/-- `DataMessage._extract`: byte strings pass through unchanged; a field whose
name is enumerated in `TYPES_INFO` has its numeric code replaced by the label
(falling back to the code itself); any other value gets the scale/offset
normalisation.  Yields the `(name, value, units)` triple; the value slot is an
`Option` because dynamic resolution can later write `None` there. -/
def extractOne (cat : Catalog) (fd : FieldDefinition) (v : Value) :
    String × Option Value × String :=
  let nm := fd.name
  let value : Value :=
    if v.isBytes then v
    else
      match List.lookup nm cat.TYPES_INFO with
      | some tbl =>
          match v with
          | .int i => match List.lookup i tbl with
            | some lbl => .label lbl
            | none => v
          | _ => v
      | none => apply_scale_offset fd v
  (nm, some value, fd.data.units.getD "")

/-- The module-level `is_dynamic` helper: with a value supplied it also
requires the value to be raw bytes; the `None` default falls back to the
definition flag alone. -/
def is_dynamic (fd : FieldDefinition) (v : Option Value) : Bool :=
  match v with
  | some v => fd.is_dynamic && v.isBytes
  | none => fd.is_dynamic

/-- `single_from`: requires the iterable to hold exactly one unique value,
raising `ValueError` otherwise. -/
def single_from (l : List String) : Except FitError String :=
  match l.dedup with
  | [x] => .ok x
  | _ => .error (.ValueError "multiple unique values found")

/-- Membership test `ref_value in subfield['ref_field_value']` under Python
equality; the reference value can be Python `None` when an earlier dynamic
field re-parsed to an invalid value, and `None` is never a member. -/
def valueMemB (ov : Option Value) (l : List Value) : Bool :=
  match ov with
  | some v => l.any (fun w => pythonEq v w)
  | none => false

/-- Loop state of `_resolve_subfields`.  The source keeps three parallel lists
`names`, `values`, `units` that are only ever written at a common index in
lockstep, so they are modelled as one list of triples; `fds` carries the
`FieldDefinition` objects, which `update` mutates in place, and `bad` the
indices scheduled for removal. -/
structure ResolveState where
  items : List (String × Option Value × String)
  fds : List FieldDefinition
  bad : List Nat

/-- One iteration of the `_resolve_subfields` loop at index `i`.  `snap` is
the `field_def_names` tuple, taken from the field definitions before the loop
starts. -/
def resolveStep (snap : List String) (st : ResolveState) (i : Nat) :
    Except FitError ResolveState :=
  match st.fds.get? i, st.items.get? i with
  | some fd, some (_, v, _) =>
      if is_dynamic fd v then
        match v with
        | some (.bytes raw) =>
            match fd.data.subfields with
            | none => .error .KeyError
            | some subs =>
                match single_from (subs.map (fun p => p.2.ref_field_name)) with
                | .error e => .error e
                | .ok r =>
                    match snap.indexOf? r with
                    | none => .ok { st with bad := st.bad ++ [i] }
                    | some idx =>
                        let ref_value := (st.items.get? idx).bind
                          (fun t => t.2.1)
                        match subs.filter
                            (fun p =>
                              valueMemB ref_value p.2.ref_field_value) with
                        | [(_, sd)] =>
                            let new_name := sd.field_name
                            let new_bt :=
                              (List.lookup new_name BASE_TYPES_BY_NAME).getD
                                BASE_TYPE_BYTE
                            let fd' := { fd with name := new_name,
                                                 base_type := new_bt }
                            match fd'.readRaw raw with
                            | .error e => .error e
                            | .ok newVal =>
                                .ok { items := st.items.set i
                                        (new_name, newVal, sd.units.getD ""),
                                      fds := st.fds.set i fd', bad := st.bad }
                        | _ => .ok { st with bad := st.bad ++ [i] }
        | _ => .error (.PyError "read from neither a file nor a buffer")
      else .ok st
  | _, _ => .ok st

/-- `DataMessage._resolve_subfields`: runs the loop over every index and then
drops the indices collected in `bad_messages`.  Returns the surviving triples
together with the field definitions as mutated by `update` (the same objects
held by the stored `DefinitionMessage`). -/
def resolveSubfields (fds : List FieldDefinition)
    (first : List (String × Option Value × String)) :
    Except FitError
      (List (String × Option Value × String) × List FieldDefinition) :=
  let snap := fds.map (fun fd => fd.name)
  match (List.range fds.length).foldlM (resolveStep snap)
      { items := first, fds := fds, bad := [] } with
  | .error e => .error e
  | .ok st =>
      .ok ((st.items.enum.filter (fun p => !(st.bad.contains p.1))).map
            (fun p => p.2), st.fds)

/-- `DataMessage.decode`: first-pass extraction, then dynamic-subfield
resolution when any field definition is dynamic.  The second component is the
field-definition list after any in-place mutation performed by resolution. -/
def DataMessage.decode (cat : Catalog) (m : DataMessage) :
    Except FitError
      (List (String × Option Value × String) × List FieldDefinition) :=
  let first := (m.field_defs.zip m.field_values).map
    (fun p => extractOne cat p.1 p.2)
  if m.field_defs.any (fun fd => fd.is_dynamic) then
    resolveSubfields m.field_defs first
  else .ok (first, m.field_defs)

/-- The protocol half of `set_version_info`: high nibble is the major, the low
four bits the minor version. -/
def protocolVersion (prot : Nat) : Nat × Nat :=
  (prot >>> 4, prot &&& 15)

/-- The Python expression `'{:.0f}'.format(num / den)` for naturals: true
division followed by rounding to the nearest integer, ties to even.  For
`den = 100` and `num < 2 ^ 16` the double `num / den` is close enough to the
rational that the two roundings agree everywhere, and at the ties
(`num % 100 = 50`) the double is exact, so this integer formulation is exact
for every input the decoder can see. -/
def formatRoundDiv (num den : Nat) : Nat :=
  let q := num / den
  let r := num % den
  if 2 * r > den then q + 1
  else if 2 * r < den then q
  else if q % 2 = 0 then q else q + 1

/-- The profile half of `set_version_info`:
`'{:.0f}.{:.0f}'.format(prof / 100, prof % 100)`. -/
def profileVersion (prof : Nat) : Nat × Nat :=
  (formatRoundDiv prof 100, prof % 100)

/-- `read_file_header`: reads 12 bytes, checks the `.FIT` magic in bytes
8 to 11, unpacks header size, version info and the 4-byte data size (all
little-endian), skips an extended header after rejecting an irregular size
(`0 < header_size - 12 < 2`; the subtraction is a Python int, so a header
size below 12 is also truthy and rejected), and finally sets `bytes_left` to
the data size. -/
def read_file_header (ff : FitFile) : Except FitError FitFile :=
  let (header_data, ff₁) := fitRead 12 ff
  if header_data.drop 8 ≠ [0x2E, 0x46, 0x49, 0x54] then
    .error .InvalidFileError
  else
    match header_data with
    | [header_size, _prot, _prof0, _prof1, d0, d1, d2, d3, _, _, _, _] =>
        let data_size := bytesToNatLE [d0, d1, d2, d3]
        let extra : Int := (header_size : Int) - 12
        if extra ≠ 0 then
          if extra < 2 then .error (.FileHeaderError "irregular file header size")
          else
            let ff₂ := fitSkip extra.toNat ff₁
            .ok { ff₂ with bytes_left := data_size }
        else .ok { ff₁ with bytes_left := data_size }
    | _ => .error .StructError

/-- A message produced by the stream: the source yields both kinds. -/
inductive Message where
  | defn (d : DefinitionMessage)
  | data (d : DataMessage)

/-- Whether a yielded message is a definition message. -/
def Message.isDefinition : Message → Bool
  | .defn _ => true
  | .data _ => false

/-- Whether a yielded message is a data message (the `isinstance(message,
DataMessage)` test of the reading layer). -/
def Message.isData : Message → Bool
  | .defn _ => false
  | .data _ => true

/-- `read_fit_message`: reads the one-byte record header and dispatches.  Bit
7 selects the compressed-timestamp shape (always a data message, slot in bits
5 and 6, time offset in bits 0 to 4); otherwise bit 6 selects definition
versus data and bits 0 to 3 carry the slot. -/
def read_fit_message (cat : Catalog) (ff : FitFile) :
    Except FitError (Message × FitFile) :=
  let (one, ff₁) := fitRead 1 ff
  match one with
  | [b] =>
      if b &&& 0x80 ≠ 0 then
        (readDataMessage ((b >>> 5) &&& 0x3) (some (b &&& 0x1F)) ff₁).map
          (fun p => (.data p.1, p.2))
      else if b &&& 0x40 ≠ 0 then
        (readDefinitionMessage cat (b &&& 0xF) ff₁).map
          (fun p => (.defn p.1, p.2))
      else
        (readDataMessage (b &&& 0xF) none ff₁).map
          (fun p => (.data p.1, p.2))
  | _ => .error .StructError

/-- The `while fitfile.bytes_left > 2: yield read_fit_message(fitfile)` loop
of `gen_fit_messages`.  `fuel` bounds the number of iterations (every
iteration consumes at least the header byte, so any fuel at least the stream
length is enough); the second component is the error that aborted the
sequence, if any.  Messages yielded before an error stay in the first
component. -/
def genLoop (cat : Catalog) : Nat → FitFile → List Message × Option FitError
  | 0, _ => ([], none)
  | fuel + 1, ff =>
      if ff.bytes_left > 2 then
        match read_fit_message cat ff with
        | .error e => ([], some e)
        | .ok (m, ff') =>
            let rest := genLoop cat fuel ff'
            (m :: rest.1, rest.2)
      else ([], none)

/-- `gen_fit_messages`: opens the file, reads the file header in place, then
yields messages until the byte budget reaches the 2-byte trailer.  A file
header error aborts before any message is produced. -/
def gen_fit_messages (cat : Catalog) (fuel : Nat) (stream : List Nat) :
    List Message × Option FitError :=
  match read_file_header (FitFile.init stream) with
  | .error e => ([], some e)
  | .ok ff => genLoop cat fuel ff

/-- `message_filter` of the reading layer (`_reading.py`): keeps only data
messages named `record` or `lap`. -/
def message_filter (m : Message) : Bool :=
  match m with
  | .data d => d.name == "record" || d.name == "lap"
  | .defn _ => false

/-- Modelled from the spec: the catalog is external, so the value that the
specification calls "re-parsing the stored raw bytes under that subfield's
own base type" is computed from the base type the catalog declares for the
subfield (its `field_type` column), not from the subfield's name.  Used to
compare the specified behaviour with the implemented one. -/
def subfieldSpecReparse (fd : FieldDefinition) (sd : SubfieldData)
    (raw : List Nat) : Except FitError (Option Value) :=
  let bt := (sd.field_type.bind
    (fun t => List.lookup t BASE_TYPES_BY_NAME)).getD BASE_TYPE_BYTE
  FieldDefinition.readRaw { fd with name := sd.field_name, base_type := bt }
    raw

/-- Catalog field entry for the concrete `record` scenario: field number 0,
name `speed`, scale 5, offset 500. -/
def speedFieldData : FieldData :=
  { field_name := some "speed", units := some "m/s", scale := some 5,
    offset := some 500, subfields := none }

/-- Subfield row for the concrete dynamic scenarios: named `product` (not a
base-type name), declared type `uint16`, selected when the reference field
`event` decodes to the label `trigger` (the profile stores accepted reference
values as strings and the reference field is enumerated). -/
def productSubfield : SubfieldData :=
  { field_name := "product", field_type := some "uint16",
    ref_field_name := "event", ref_field_value := [.label "trigger"],
    units := some "units2" }

/-- Catalog entry for the reference field of the dynamic scenarios. -/
def eventFieldData : FieldData :=
  { field_name := some "event", units := none, scale := none, offset := none,
    subfields := none }

/-- Catalog entry for the dynamic field of the dynamic scenarios. -/
def dynFieldData : FieldData :=
  { field_name := some "data", units := some "u", scale := none,
    offset := none,
    subfields := some [("gear_change_data", productSubfield)] }

/-- A small concrete catalog used by the concrete scenarios: global message
20 is `record` with the `speed` field, global message 21 is `event` with a
reference field and a dynamic field. -/
def exCat : Catalog :=
  { GLOBAL_MESG_NUMS := [(20, "record"), (21, "event")],
    MESSAGE_TYPES :=
      [ ("record", [(0, speedFieldData)]),
        ("event", [(0, eventFieldData), (1, dynFieldData)]) ],
    TYPES_INFO := [("event", [(5, "trigger")])] }

/-- The `event` reference field definition as the decoder would build it:
one byte, uint8. -/
def exEventFd : FieldDefinition :=
  { size := 1, base_type := mkIntSentinel "uint8" 0x02 .B 255,
    data := eventFieldData, is_dynamic := false, name := "event",
    bigEndian := false }

/-- The dynamic field definition of the concrete scenarios: two bytes,
declared uint16, carrying the subfield table. -/
def exDynFd : FieldDefinition :=
  { size := 2, base_type := mkIntSentinel "uint16" 0x84 .H 65535,
    data := dynFieldData, is_dynamic := true, name := "data",
    bigEndian := false }

/-- The field definitions of the concrete dynamic message. -/
def exDynFds : List FieldDefinition := [exEventFd, exDynFd]

/-- The first-pass triples of the concrete dynamic message: the reference
field decoded to the label `trigger`, the dynamic field still holds its raw
bytes `[0, 1]`. -/
def exDynFirst : List (String × Option Value × String) :=
  [("event", some (.label "trigger"), ""), ("data", some (.bytes [0, 1]), "u")]

/-- The dynamic field definition after resolution rewrote it in place: the
subfield name `product` is not a base-type name, so the base type fell back
to `BASE_TYPE_BYTE`. -/
def exDynFdRes : FieldDefinition :=
  { exDynFd with name := "product", base_type := BASE_TYPE_BYTE }

/-- A one-byte dynamic field variant used for the sentinel scenario. -/
def exDynFd1 : FieldDefinition :=
  { size := 1, base_type := BASE_TYPE_BYTE, data := dynFieldData,
    is_dynamic := true, name := "data", bigEndian := false }

/-- A concrete data message whose dynamic field holds the byte sentinel
`0xFF` as its raw value. -/
def exSentinelMsg : DataMessage :=
  { local_message_type := 0, time_offset := none, name := "event",
    field_defs := [exEventFd, exDynFd1],
    field_values := [.int 5, .bytes [255]] }

/-- A concrete data message used to exhibit the in-place mutation of the
stored field definitions. -/
def exMutMsg : DataMessage :=
  { local_message_type := 0, time_offset := none, name := "event",
    field_defs := exDynFds, field_values := [.int 5, .bytes [0, 1]] }

/-- Byte stream of a complete little file: 12-byte header (data size 12),
a definition message for slot 0 (global message 20 = `record`, one uint16
field of size 2), and a data message with raw field bytes `0x64 0x00`. -/
def exStream : List Nat :=
  [12, 0x10, 100, 0, 12, 0, 0, 0, 0x2E, 0x46, 0x49, 0x54] ++
  [0x40, 0, 0, 20, 0, 1, 0, 2, 0x84] ++
  [0x00, 0x64, 0x00]

/-- A big-endian variant of the definition-plus-data pair, without the file
header: architecture byte 1, then the data bytes `0x01 0x02`. -/
def exBigStream : List Nat :=
  [0, 1, 0, 20, 1, 0, 2, 0x84] ++ [1, 2]

/-- Cursor positioned at the big-endian definition body. -/
def exBigFF : FitFile :=
  { stream := exBigStream, bytes_left := 100, local_messages := [] }

/-- A plain uint8 field definition of encoded size 2 (a two-element array). -/
def exU8x2Fd : FieldDefinition :=
  { size := 2, base_type := mkIntSentinel "uint8" 0x02 .B 255,
    data := FieldData.empty, is_dynamic := false, name := "unknown",
    bigEndian := false }

/-- The `speed` field definition as parsed from `exStream`. -/
def exSpeedFd : FieldDefinition :=
  { size := 2, base_type := mkIntSentinel "uint16" 0x84 .H 65535,
    data := speedFieldData, is_dynamic := false, name := "speed",
    bigEndian := false }

/-- The `speed` field definition as parsed from the big-endian variant. -/
def exBigSpeedFd : FieldDefinition :=
  { exSpeedFd with bigEndian := true }

/-- A big-endian uint16 field definition with no catalog entry. -/
def exBigU16Fd : FieldDefinition :=
  { size := 2, base_type := mkIntSentinel "uint16" 0x84 .H 65535,
    data := FieldData.empty, is_dynamic := false, name := "unknown",
    bigEndian := true }

/-- The definition message parsed from the big-endian variant stream. -/
def exBigDm : DefinitionMessage :=
  { local_message_type := 0, name := "record",
    type := [(0, speedFieldData)], field_defs := [exBigSpeedFd] }

/-- The cursor after parsing the big-endian definition body. -/
def exBigAfterFF : FitFile :=
  { stream := [1, 2], bytes_left := 92, local_messages := [(0, exBigDm)] }

/-- A zero-field `record` definition message. -/
def exEmptyDefn : DefinitionMessage :=
  { local_message_type := 0, name := "record",
    type := [(0, speedFieldData)], field_defs := [] }

/-- Cursor holding only a zero-field definition message body. -/
def exDefnOnlyFF : FitFile :=
  { stream := [0x40, 0, 0, 20, 0, 0], bytes_left := 10, local_messages := [] }

/-- The cursor after parsing the zero-field definition message. -/
def exAfterDefnFF : FitFile :=
  { stream := [], bytes_left := 4, local_messages := [(0, exEmptyDefn)] }

/-- A one-byte uint8 field definition with no catalog entry. -/
def exU8Fd : FieldDefinition :=
  { size := 1, base_type := mkIntSentinel "uint8" 0x02 .B 255,
    data := FieldData.empty, is_dynamic := false, name := "unknown",
    bigEndian := false }

/-- A definition message with a single plain uint8 field. -/
def exU8Dm : DefinitionMessage :=
  { local_message_type := 0, name := "unknown", type := [],
    field_defs := [exU8Fd] }

/-- Cursor whose next byte is the uint8 sentinel `0xFF`, with the one-field
definition active in slot 0. -/
def exC5ff : FitFile :=
  { stream := [255], bytes_left := 5, local_messages := [(0, exU8Dm)] }

/-- The cursor after reading the sentinel data message body. -/
def exC5after : FitFile :=
  { stream := [], bytes_left := 4, local_messages := [(0, exU8Dm)] }

/-- The data message decoded from the sentinel byte: its only field was
invalid, so the field lists are empty. -/
def exC5msg0 : DataMessage :=
  { local_message_type := 0, time_offset := none, name := "unknown",
    field_defs := [], field_values := [] }

/-- A decoded `record` data message carrying the raw value 100. -/
def exRecMsg : DataMessage :=
  { local_message_type := 0, time_offset := none, name := "record",
    field_defs := [exSpeedFd], field_values := [.int 100] }

/-- C8: the claim states that the profile major version is `v // 100` (floor
division).  The code formats `v / 100` (true division) with `%.0f`, which
rounds to the nearest integer: for the 16-bit profile value 160 the code
produces major version 2 while floor division gives 1.  The minor version and
the protocol nibbles behave as claimed.  The docstring of `set_version_info`
says the decoding matches the FIT SDK, which uses integer division, so the
rounding is a slip of the code. -/
theorem C8_version_divergence :
    profileVersion 160 = (2, 60) ∧
    160 / 100 = 1 ∧
    (2 : Nat) ≠ 1 ∧
    protocolVersion 0x21 = (2, 1) ∧
    profileVersion 2093 = (21, 93) ∧
    2093 / 100 = 20 := by
  refine ⟨by decide, by decide, by decide, by decide, by decide, by decide⟩

/-- C10 (counterexample): `bytes_left` starts at 0 when the cursor is
constructed and is decremented to -12 by the 12-byte header read inside
`read_file_header`, before being reset to the payload size; so the counter
does go negative during the decode of every file. -/
theorem C10_counterexample :
    (FitFile.init exStream).bytes_left = 0 ∧
    (fitRead 12 (FitFile.init exStream)).2.bytes_left = -12 ∧
    ((-12 : Int) < 0) ∧
    (read_file_header (FitFile.init exStream)).map (fun f => f.bytes_left) =
      .ok 12 := by
  exact ⟨rfl, rfl, by decide, rfl⟩

/-- C10 (amended): every read or skip of `n` bytes decrements `bytes_left` by
exactly `n`, and the message loop stops as soon as `bytes_left ≤ 2`; however
`bytes_left` is initialised to 0 and becomes negative while the file header
itself is read, before being set to the payload size. -/
theorem C10_amended :
    (∀ (n : Nat) (ff : FitFile),
        (fitRead n ff).2.bytes_left = ff.bytes_left - n ∧
        (fitSkip n ff).bytes_left = ff.bytes_left - n) ∧
    (∀ (cat : Catalog) (fuel : Nat) (ff : FitFile),
        ff.bytes_left ≤ 2 → genLoop cat fuel ff = ([], none)) := by
  constructor
  · intro n ff
    exact ⟨rfl, rfl⟩
  · intro cat fuel ff h
    cases fuel with
    | zero => rfl
    | succ k =>
        have hn : ¬ (ff.bytes_left > 2) := not_lt.mpr h
        simp [genLoop, hn]

/-- C10 (witness): the loop-stop half of the amended theorem at a concrete
exhausted cursor. -/
theorem C10_witness :
    genLoop exCat 5 (FitFile.init []) = ([], none) :=
  C10_amended.2 exCat 5 (FitFile.init []) (by decide)

/-- C3 (counterexample): the message sequence over the concrete file yields
the definition message itself as its first element, so the sequence does not
consist of data messages only. -/
theorem C3_counterexample :
    (gen_fit_messages exCat 20 exStream).1.map Message.isDefinition =
      [true, false] ∧
    (gen_fit_messages exCat 20 exStream).2 = none := by
  exact ⟨rfl, rfl⟩

/-- C3 (amended): `gen_fit_messages` yields every parsed message, definition
messages included (they also update the slot table); the restriction to data
messages happens downstream, in the reading layer, whose `message_filter`
keeps only data messages (named `record` or `lap`). -/
theorem C3_amended :
    ∀ (cat : Catalog) (fuel : Nat) (s : List Nat),
      ((gen_fit_messages cat fuel s).1.filter message_filter).all
        Message.isData = true := by
  intro cat fuel s
  rw [List.all_eq_true]
  intro m hm
  have h := List.of_mem_filter hm
  cases m with
  | defn d => simp [message_filter] at h
  | data d => rfl

/-- C4: a data message whose local slot has no stored definition fails with
the missing-definition error (`MessageHeaderError` in the source, the
`MissingDefinition` kind of the design); an error in a message read halts the
sequence with nothing further yielded, and a successful message read leaves
every already-yielded message in place in front of the rest of the
sequence. -/
theorem C4_missing_definition :
    (∀ (slot : Nat) (toff : Option Nat) (ff : FitFile),
        List.lookup slot ff.local_messages = none →
        readDataMessage slot toff ff =
          .error (.MessageHeaderError
            ("invalid local message type (" ++ toString slot ++ ")"))) ∧
    (∀ (cat : Catalog) (fuel : Nat) (ff : FitFile) (e : FitError),
        ff.bytes_left > 2 → read_fit_message cat ff = .error e →
        genLoop cat (fuel + 1) ff = ([], some e)) ∧
    (∀ (cat : Catalog) (fuel : Nat) (ff : FitFile) (m : Message)
        (ff' : FitFile),
        ff.bytes_left > 2 → read_fit_message cat ff = .ok (m, ff') →
        genLoop cat (fuel + 1) ff =
          (m :: (genLoop cat fuel ff').1, (genLoop cat fuel ff').2)) := by
  refine ⟨?_, ?_, ?_⟩
  · intro slot toff ff h
    simp [readDataMessage, h]
  · intro cat fuel ff e h he
    simp [genLoop, h, he]
  · intro cat fuel ff m ff' h he
    simp [genLoop, h, he]

/-- C4 (witness): the three parts of the theorem at concrete inputs: an empty
slot table rejects slot 3; a truncated stream aborts the loop with the error
and no yielded messages; a zero-field definition message is yielded in front
of the rest of the loop. -/
theorem C4_witness :
    readDataMessage 3 none (FitFile.init []) =
      .error (.MessageHeaderError "invalid local message type (3)") ∧
    genLoop exCat 1 { stream := [], bytes_left := 10, local_messages := [] } =
      ([], some .StructError) ∧
    genLoop exCat 1 exDefnOnlyFF =
      (Message.defn exEmptyDefn :: (genLoop exCat 0 exAfterDefnFF).1,
       (genLoop exCat 0 exAfterDefnFF).2) := by
  refine ⟨?_, ?_, ?_⟩
  · exact C4_missing_definition.1 3 none (FitFile.init []) rfl
  · exact C4_missing_definition.2.1 exCat 0
      { stream := [], bytes_left := 10, local_messages := [] } .StructError
      (by decide) rfl
  · exact C4_missing_definition.2.2 exCat 0 exDefnOnlyFF
      (Message.defn exEmptyDefn) exAfterDefnFF (by decide) rfl

/-- C9: for a non-enumerated numeric field the extracted value is
`raw / scale - offset`, with scale defaulting to 1 and offset to 0; and the
concrete 1-field `record` scenario (uint16, scale 5, offset 500, raw bytes
`0x64 0x00`) decodes to -480 through the full pipeline. -/
theorem C9_scale_offset :
    (∀ (cat : Catalog) (fd : FieldDefinition) (i : Int),
        List.lookup fd.name cat.TYPES_INFO = none →
        fd.data.scale.getD 1 ≠ 0 →
        extractOne cat fd (.int i) =
          (fd.name,
           some (.num ((i : Rat) / fd.data.scale.getD 1 -
             fd.data.offset.getD 0)),
           fd.data.units.getD "")) ∧
    ((gen_fit_messages exCat 20 exStream).1.get? 1).map
        (fun m =>
          match m with
          | Message.data d => (d.decode exCat).map Prod.fst
          | Message.defn _ => Except.error FitError.KeyError) =
      some (.ok [("speed", some (.num (-480)), "m/s")]) := by
  constructor
  · intro cat fd i h _hscale
    simp [extractOne, apply_scale_offset, h, Value.isBytes]
  · have h1 : ((gen_fit_messages exCat 20 exStream).1.get? 1).map
        (fun m =>
          match m with
          | Message.data d => (d.decode exCat).map Prod.fst
          | Message.defn _ => Except.error FitError.KeyError) =
        some (.ok [("speed", some (.num (((100 : Int) : Rat) / 5 - 500)),
          "m/s")]) := by rfl
    rw [h1]
    norm_num

/-- C9 (witness): the scale/offset formula at the concrete `speed` field and
raw value 100. -/
theorem C9_witness :
    extractOne exCat exSpeedFd (.int 100) =
      ("speed", some (.num (((100 : Int) : Rat) / 5 - 500)), "m/s") :=
  C9_scale_offset.1 exCat exSpeedFd 100 rfl
    (by norm_num [exSpeedFd, speedFieldData])

/-- Every field definition produced by the field-definition loop stores the
endianness selected by the architecture byte of its definition message. -/
theorem readFieldDef_endian (mtype : MessageType) (big : Bool) (ff : FitFile)
    (fd : FieldDefinition) (ff' : FitFile)
    (h : readFieldDef mtype big ff = .ok (fd, ff')) : fd.bigEndian = big := by
  unfold readFieldDef at h
  rcases hs : ff.stream with _ | ⟨b0, _ | ⟨b1, _ | ⟨b2, rest⟩⟩⟩ <;>
    simp [fitRead, hs] at h
  obtain ⟨h1, _⟩ := h
  rw [← h1]

/-- The endianness of every field definition read by `readFieldDefs` is the
architecture flag passed in. -/
theorem readFieldDefs_endian (mtype : MessageType) (big : Bool) :
    ∀ (n : Nat) (ff : FitFile) (fds : List FieldDefinition) (ff' : FitFile),
      readFieldDefs mtype big n ff = .ok (fds, ff') →
      ∀ fd ∈ fds, fd.bigEndian = big := by
  intro n
  induction n with
  | zero =>
      intro ff fds ff' h fd hm
      cases h
      simp at hm
  | succ k ih =>
      intro ff fds ff' h fd hm
      unfold readFieldDefs at h
      cases hd : readFieldDef mtype big ff with
      | error e => rw [hd] at h; simp at h
      | ok p =>
          obtain ⟨fd1, ff1⟩ := p
          rw [hd] at h
          dsimp only at h
          cases hr : readFieldDefs mtype big k ff1 with
          | error e => rw [hr] at h; simp at h
          | ok q =>
              obtain ⟨fds1, ff2⟩ := q
              rw [hr] at h
              dsimp only at h
              obtain ⟨hfds, _⟩ : fd1 :: fds1 = fds ∧ ff2 = ff' := by
                simpa using h
              rw [← hfds] at hm
              rcases List.mem_cons.mp hm with hm | hm
              · subst hm
                exact readFieldDef_endian mtype big ff fd ff1 hd
              · exact ih ff1 fds1 ff2 hr fd hm

/-- C1 (amended): the architecture byte of a definition message selects the
endianness stored in every one of its field definitions, and that stored
endianness governs how the field bytes of data messages are unpacked (shown
for a two-byte uint16 field); so the architecture byte governs the field
values too, not only the global message number. -/
theorem C1_amended :
    (∀ (cat : Catalog) (slot : Nat) (ff : FitFile) (dm : DefinitionMessage)
        (ff' : FitFile) (res arch : Nat) (rest : List Nat),
        ff.stream = res :: arch :: rest →
        readDefinitionMessage cat slot ff = .ok (dm, ff') →
        ∀ fd ∈ dm.field_defs, fd.bigEndian = decide (arch ≠ 0)) ∧
    (∀ (fd : FieldDefinition) (a b : Nat),
        fd.size = 2 →
        fd.base_type = mkIntSentinel "uint16" 0x84 .H 65535 →
        fd.readRaw [a, b] =
          .ok ((mkIntSentinel "uint16" 0x84 .H 65535).parse
            (.int (if fd.bigEndian then b + 256 * a else a + 256 * b)))) := by
  constructor
  · intro cat slot ff dm ff' res arch rest hs h fd hm
    unfold readDefinitionMessage at h
    simp only [fitRead, hs, List.take_succ_cons, List.take_zero,
      List.drop_succ_cons, List.drop_zero] at h
    split at h
    · rename_i g0 g1 fc heq3
      split at h
      · rename_i e heqfds
        simp at h
      · rename_i fds ff₃ heqfds
        simp only [Except.ok.injEq, Prod.mk.injEq] at h
        obtain ⟨hdm, -⟩ := h
        subst hdm
        dsimp only at hm
        exact readFieldDefs_endian _ _ _ _ _ _ heqfds fd hm
    · simp at h
  · intro fd a b h1 h2
    have hn : fd.n_bytes = 1 := by
      rw [FieldDefinition.n_bytes, h1, h2]
      rfl
    unfold FieldDefinition.readRaw
    rw [hn, h2]
    cases hbe : fd.bigEndian <;>
      simp [structUnpack, calcsizeFmt, FmtChar.width, chunkBytes,
        unpackChunk, bytesToNatBE, bytesToNatLE, mkIntSentinel]

/-- C1 (counterexample): under a big-endian definition (architecture byte 1)
the two field bytes `0x01 0x02` decode to 258 (big-endian), not to the 513
that an always-little-endian field decode would produce. -/
theorem C1_counterexample :
    ((readDefinitionMessage exCat 0 exBigFF).bind
        (fun p => readDataMessage 0 none p.2)).map
      (fun p => p.1.field_values) = .ok [.int 258] ∧
    bytesToNatBE [1, 2] = 258 ∧
    bytesToNatLE [1, 2] = 513 ∧
    (Value.int 258 ≠ .int 513) := by
  exact ⟨rfl, rfl, rfl, by decide⟩

/-- C1 (witness): the amended theorem applied to the concrete big-endian
definition and its uint16 field. -/
theorem C1_witness :
    exBigSpeedFd.bigEndian = decide ((1 : Nat) ≠ 0) ∧
    FieldDefinition.readRaw exBigU16Fd [1, 2] = .ok (some (.int 258)) := by
  constructor
  · exact C1_amended.1 exCat 0 exBigFF exBigDm exBigAfterFF 0 1
      [0, 20, 1, 0, 2, 0x84, 1, 2] rfl rfl exBigSpeedFd
      (by simp [exBigDm])
  · rw [C1_amended.2 exBigU16Fd 1 2 rfl rfl]
    rfl

/-- `struct.unpack` always produces `count` chunks for a repeated format. -/
theorem chunkBytes_length (count w : Nat) :
    ∀ bs : List Nat, (chunkBytes count w bs).length = count := by
  induction count with
  | zero => intro bs; rfl
  | succ k ih => intro bs; simp [chunkBytes, ih]

/-- `calcsize` of a counted format is always count times the width of the
format character (for the string format the width is 1). -/
theorem calcsizeFmt_eq (n : Nat) (c : FmtChar) :
    calcsizeFmt n c = n * c.width := by
  cases c <;> simp [calcsizeFmt, FmtChar.width]

/-- On a buffer of matching length, `structUnpack` of a non-string format
yields the per-chunk unpacked values. -/
theorem structUnpack_not_s (big : Bool) (count : Nat) (c : FmtChar)
    (raw : List Nat) (hc : c ≠ .s)
    (hlen : raw.length = calcsizeFmt count c) :
    structUnpack big count c raw =
      .ok ((chunkBytes count c.width raw).map (unpackChunk big c)) := by
  unfold structUnpack
  rw [hlen, if_neg (by simp)]
  cases c
  case s => exact absurd rfl hc
  all_goals rfl

/-- On a buffer of matching length, `structUnpack` of the string format
yields the single byte-string value. -/
theorem structUnpack_s (big : Bool) (count : Nat) (raw : List Nat)
    (hlen : raw.length = count) :
    structUnpack big count .s raw = .ok [.bytes raw] := by
  unfold structUnpack
  simp [calcsizeFmt, hlen]

/-- C7 (amended): for a non-dynamic field whose encoded size is a multiple of
its base type width, reading the field consumes exactly `encoded_size` bytes
(both from the stream and from the byte budget) and unpacks
`element_count = encoded_size / byte_width` values, but the decoded value of
the field is only the first of them (validity-checked); the remaining
elements are discarded. -/
theorem C7_amended :
    ∀ (fd : FieldDefinition) (ff : FitFile),
      fd.is_dynamic = false →
      fd.size = fd.n_bytes * fd.base_type.size →
      0 < fd.n_bytes →
      fd.size ≤ ff.stream.length →
      ∃ v vs,
        structUnpack fd.bigEndian fd.n_bytes fd.base_type.fmt
          (ff.stream.take fd.size) = .ok (v :: vs) ∧
        (fd.base_type.fmt ≠ .s → (v :: vs).length = fd.n_bytes) ∧
        fd.readFile ff =
          .ok (fd.base_type.parse v,
            { stream := ff.stream.drop fd.size,
              bytes_left := ff.bytes_left - fd.size,
              local_messages := ff.local_messages }) := by
  intro fd ff h1 h2 h3 h4
  have hlen : (ff.stream.take fd.size).length = fd.size := by
    rw [List.length_take]
    omega
  have hw : fd.base_type.size = fd.base_type.fmt.width := rfl
  have key : ∃ v vs,
      structUnpack fd.bigEndian fd.n_bytes fd.base_type.fmt
        (ff.stream.take fd.size) = .ok (v :: vs) ∧
      (fd.base_type.fmt ≠ .s → (v :: vs).length = fd.n_bytes) := by
    by_cases hc : fd.base_type.fmt = .s
    · have hsz : fd.size = fd.n_bytes := by
        rw [h2, hw, hc]
        simp [FmtChar.width]
      refine ⟨.bytes (ff.stream.take fd.size), [], ?_, ?_⟩
      · rw [hc]
        exact structUnpack_s _ _ _ (by rw [hlen, hsz])
      · intro hne
        exact absurd hc hne
    · have hsu := structUnpack_not_s fd.bigEndian fd.n_bytes
        fd.base_type.fmt (ff.stream.take fd.size) hc
        (by rw [hlen, calcsizeFmt_eq, ← hw, ← h2])
      obtain ⟨k, hk⟩ : ∃ k, fd.n_bytes = k + 1 := ⟨fd.n_bytes - 1, by omega⟩
      rw [hk, chunkBytes, List.map_cons] at hsu
      rw [hk]
      refine ⟨_, _, hsu, fun _ => ?_⟩
      simp [chunkBytes_length]
  obtain ⟨v, vs, hsu, hlens⟩ := key
  refine ⟨v, vs, hsu, hlens, ?_⟩
  unfold FieldDefinition.readFile
  simp only [fitRead, h1, Bool.false_eq_true, if_false]
  unfold FieldDefinition.readRaw
  rw [hsu]

/-- C7 (counterexample): a uint8 field of encoded size 2 unpacks the two
array elements 3 and 4 but decodes to the single value 3; the decoded value
is not the two-element array the claim describes. -/
theorem C7_counterexample :
    FieldDefinition.readRaw exU8x2Fd [3, 4] = .ok (some (.int 3)) ∧
    structUnpack false 2 .B [3, 4] = .ok [.int 3, .int 4] ∧
    ([Value.int 3] ≠ [Value.int 3, Value.int 4]) := by
  exact ⟨rfl, rfl, by decide⟩

/-- C7 (witness): the amended theorem at the concrete two-element uint8
field. -/
theorem C7_witness :
    FieldDefinition.readFile exU8x2Fd
        { stream := [3, 4, 9], bytes_left := 7, local_messages := [] } =
      .ok (some (.int 3),
        { stream := [9], bytes_left := 5, local_messages := [] }) := by
  obtain ⟨v, vs, hsu, _, hrf⟩ := C7_amended exU8x2Fd
    { stream := [3, 4, 9], bytes_left := 7, local_messages := [] }
    rfl rfl (by decide) (by decide)
  have h0 : structUnpack exU8x2Fd.bigEndian exU8x2Fd.n_bytes
      exU8x2Fd.base_type.fmt
      (List.take exU8x2Fd.size [3, 4, 9]) = .ok [Value.int 3, Value.int 4] :=
    rfl
  rw [h0] at hsu
  injection hsu with hsu
  injection hsu with hv hvs
  subst hv
  exact hrf

/-- Looking a key up in the slot table is unaffected by erasing a different
slot. -/
theorem lookup_filter_ne (slot slot' : Nat) (h : slot' ≠ slot) :
    ∀ l : List (Nat × DefinitionMessage),
      List.lookup slot' (l.filter (fun p => p.1 ≠ slot)) =
        List.lookup slot' l := by
  intro l
  induction l with
  | nil => rfl
  | cons x xs ih =>
      obtain ⟨k, d⟩ := x
      by_cases hk : k = slot
      · subst hk
        have hne : (slot' == k) = false := by simpa using h
        simp [List.filter_cons, List.lookup, hne]
        simpa using ih
      · simp only [List.filter_cons, ne_eq, hk, not_false_eq_true,
          decide_True, if_pos]
        cases hsk : slot' == k <;> simp [List.lookup, hsk]
        simpa using ih

/-- C6 (amended): decoding a data message with no dynamic field leaves the
field definitions untouched, and a definition stored into a slot wholly
replaces the previous occupant while leaving other slots unchanged; but a
successful dynamic-subfield resolution mutates the matched `FieldDefinition`
(its `name` and `base_type`) in place, and those objects are the ones held by
the stored `DefinitionMessage`. -/
theorem C6_amended :
    (∀ (cat : Catalog) (m : DataMessage),
        m.field_defs.any (fun fd => fd.is_dynamic) = false →
        DataMessage.decode cat m =
          .ok ((m.field_defs.zip m.field_values).map
            (fun p => extractOne cat p.1 p.2), m.field_defs)) ∧
    (∀ (slot : Nat) (dm : DefinitionMessage)
        (l : List (Nat × DefinitionMessage)),
        List.lookup slot (insertSlot slot dm l) = some dm) ∧
    (∀ (slot slot' : Nat) (dm : DefinitionMessage)
        (l : List (Nat × DefinitionMessage)), slot' ≠ slot →
        List.lookup slot' (insertSlot slot dm l) = List.lookup slot' l) := by
  refine ⟨?_, ?_, ?_⟩
  · intro cat m h
    unfold DataMessage.decode
    simp [h]
  · intro slot dm l
    simp [insertSlot, List.lookup]
  · intro slot slot' dm l h
    have hne : (slot' == slot) = false := by simpa using h
    simp only [insertSlot, List.lookup, hne]
    exact lookup_filter_ne slot slot' h l

/-- C6 (witness): the amended theorem at a concrete dynamic-free `record`
message and a concrete slot table. -/
theorem C6_witness :
    DataMessage.decode exCat exRecMsg =
      .ok ([("speed", some (.num (((100 : Int) : Rat) / 5 - 500)), "m/s")],
        [exSpeedFd]) ∧
    List.lookup 0 (insertSlot 0 exEmptyDefn []) = some exEmptyDefn ∧
    List.lookup 1 (insertSlot 0 exEmptyDefn [(1, exU8Dm)]) =
      List.lookup 1 [(1, exU8Dm)] := by
  refine ⟨?_, ?_, ?_⟩
  · exact C6_amended.1 exCat exRecMsg (by rfl)
  · exact C6_amended.2.1 0 exEmptyDefn []
  · exact C6_amended.2.2 0 1 exEmptyDefn [(1, exU8Dm)] (by decide)

/-- C6 (counterexample): decoding the concrete dynamic message rewrites the
dynamic field definition in place: its name changes from `data` to `product`
and its base type from uint16 to the byte fallback, so the stored
`DefinitionMessage` (which holds these same objects) is mutated by decoding a
data message under it. -/
theorem C6_counterexample :
    (DataMessage.decode exCat exMutMsg).map
        (fun p => p.2.map (fun fd => (fd.name, fd.base_type.name))) =
      .ok [("event", "uint8"), ("product", "byte")] ∧
    exMutMsg.field_defs.map (fun fd => (fd.name, fd.base_type.name)) =
      [("event", "uint8"), ("data", "uint16")] ∧
    ([("event", "uint8"), ("product", "byte")] ≠
      [("event", "uint8"), ("data", "uint16")]) := by
  exact ⟨rfl, rfl, by decide⟩

/-- Reading the fields of a data message produces one (possibly absent)
value per field definition. -/
theorem readFields_length :
    ∀ (fds : List FieldDefinition) (ff : FitFile) (ovs : List (Option Value))
      (ff' : FitFile),
      readFields fds ff = .ok (ovs, ff') → ovs.length = fds.length := by
  intro fds
  induction fds with
  | nil =>
      intro ff ovs ff' h
      cases h
      rfl
  | cons fd fds ih =>
      intro ff ovs ff' h
      unfold readFields at h
      cases hr : fd.readFile ff with
      | error e => rw [hr] at h; simp at h
      | ok p =>
          obtain ⟨ov, ff1⟩ := p
          rw [hr] at h
          dsimp only at h
          cases hrs : readFields fds ff1 with
          | error e => rw [hrs] at h; simp at h
          | ok q =>
              obtain ⟨ovs1, ff2⟩ := q
              rw [hrs] at h
              dsimp only at h
              obtain ⟨hovs, -⟩ : ov :: ovs1 = ovs ∧ ff2 = ff' := by
                simpa using h
              rw [← hovs, List.length_cons, ih ff1 ovs1 ff2 hrs]
              rfl

/-- If some field read is absent, the valid-field filter of
`DataMessage.__init__` keeps strictly fewer fields than the definition
declares. -/
theorem dropNone_length :
    ∀ (fds : List FieldDefinition) (ovs : List (Option Value)) (i : Nat),
      fds.length = ovs.length → ovs.get? i = some none →
      ((fds.zip ovs).filterMap
        (fun p => p.2.map (fun v => (p.1, v)))).length < fds.length := by
  intro fds
  induction fds with
  | nil =>
      intro ovs i hl hg
      cases ovs with
      | nil => simp at hg
      | cons o os => simp at hl
  | cons fd fds ih =>
      intro ovs i hl hg
      cases ovs with
      | nil => simp at hl
      | cons o os =>
          cases i with
          | zero =>
              have ho : o = none := by simpa using hg
              subst ho
              simp only [List.zip_cons_cons, List.filterMap_cons,
                Option.map_none']
              have hle := List.length_filterMap_le
                (fun p : FieldDefinition × Option Value =>
                  p.2.map (fun v => (p.1, v))) (fds.zip os)
              have hz : (fds.zip os).length ≤ fds.length := by
                simp [List.length_zip]
              simp only [List.length_cons]
              omega
          | succ j =>
              have hg' : os.get? j = some none := by simpa using hg
              have hl' : fds.length = os.length := by simpa using hl
              have := ih os j hl' hg'
              cases o with
              | none =>
                  simp only [List.zip_cons_cons, List.filterMap_cons,
                    Option.map_none', List.length_cons]
                  omega
              | some v =>
                  simp only [List.zip_cons_cons, List.filterMap_cons,
                    Option.map_some', List.length_cons]
                  omega

/-- The names of the valid pairs are the names of the fields whose value was
present. -/
theorem filterMapPairs_fst {α β : Type} (l : List (α × Option β)) :
    (l.filterMap (fun p => p.2.map (fun v => (p.1, v)))).map Prod.fst =
      l.filterMap (fun p => p.2.map (fun _ => p.1)) := by
  induction l with
  | nil => rfl
  | cons x xs ih =>
      obtain ⟨a, ob⟩ := x
      cases ob <;> simp [List.filterMap_cons, ih]

/-- The values of the valid pairs are the present values. -/
theorem filterMapPairs_snd {α β : Type} (l : List (α × Option β)) :
    (l.filterMap (fun p => p.2.map (fun v => (p.1, v)))).map Prod.snd =
      l.filterMap (fun p => p.2) := by
  induction l with
  | nil => rfl
  | cons x xs ih =>
      obtain ⟨a, ob⟩ := x
      cases ob <;> simp [List.filterMap_cons, ih]

/-- C5 (amended): every base type of the registry parses its invalid sentinel
to absent (all-ones for ordinary integers, zero for the z variants, any NaN
bit pattern for the floats, and a string that is empty after trimming at the
terminator), and a non-dynamic field whose read came back absent is omitted
from the constructed data message, leaving strictly fewer fields than the
definition declares; however a dynamic field that resolves to a subfield and
re-parses to the sentinel stays in the decoded output with an absent value
(see the counterexample). -/
theorem C5_amended :
    ((mkIntSentinel "enum" 0x00 .B 255).parse (.int 255) = none ∧
     (mkIntSentinel "sint8" 0x01 .b 127).parse (.int 127) = none ∧
     (mkIntSentinel "uint8" 0x02 .B 255).parse (.int 255) = none ∧
     (mkIntSentinel "sint16" 0x83 .h 32767).parse (.int 32767) = none ∧
     (mkIntSentinel "uint16" 0x84 .H 65535).parse (.int 65535) = none ∧
     (mkIntSentinel "sint32" 0x85 .i 2147483647).parse (.int 2147483647) =
       none ∧
     (mkIntSentinel "uint32" 0x86 .I 4294967295).parse (.int 4294967295) =
       none ∧
     (mkIntSentinel "uint8z" 0x0A .B 0).parse (.int 0) = none ∧
     (mkIntSentinel "uint16z" 0x8B .H 0).parse (.int 0) = none ∧
     (mkIntSentinel "uint32z" 0x8C .I 0).parse (.int 0) = none ∧
     BASE_TYPE_BYTE.parse (.int 255) = none ∧
     stringBaseType.parse (.bytes []) = none ∧
     (∀ bs : List Nat, stringBaseType.parse (.bytes (0 :: bs)) = none) ∧
     (∀ bits : Nat, isNanBits32 bits = true →
       (mkFloatType "float32" 0x88 .f).parse (.float false bits) = none) ∧
     (∀ bits : Nat, isNanBits64 bits = true →
       (mkFloatType "float64" 0x89 .d).parse (.float true bits) = none)) ∧
    (∀ (slot : Nat) (toff : Option Nat) (ff : FitFile)
        (dm : DefinitionMessage) (ovs : List (Option Value)) (ffr : FitFile)
        (m : DataMessage) (ff' : FitFile),
        List.lookup slot ff.local_messages = some dm →
        readFields dm.field_defs ff = .ok (ovs, ffr) →
        readDataMessage slot toff ff = .ok (m, ff') →
        (m.field_defs =
            (dm.field_defs.zip ovs).filterMap
              (fun p => p.2.map (fun _ => p.1)) ∧
         m.field_values =
            (dm.field_defs.zip ovs).filterMap (fun p => p.2) ∧
         ∀ i : Nat, ovs.get? i = some none →
            m.field_defs.length < dm.field_defs.length)) := by
  constructor
  · refine ⟨rfl, rfl, rfl, rfl, rfl, rfl, rfl, rfl, rfl, rfl, rfl, rfl,
      ?_, ?_, ?_⟩
    · intro bs
      simp [stringBaseType, List.takeWhile]
    · intro bits h
      simp [mkFloatType, h]
    · intro bits h
      simp [mkFloatType, h]
  · intro slot toff ff dm ovs ffr m ff' hdm hre hmsg
    unfold readDataMessage at hmsg
    rw [hdm] at hmsg
    dsimp only at hmsg
    rw [hre] at hmsg
    dsimp only at hmsg
    simp only [Except.ok.injEq, Prod.mk.injEq] at hmsg
    obtain ⟨hm, -⟩ := hmsg
    rw [← hm]
    dsimp only
    refine ⟨filterMapPairs_fst _, filterMapPairs_snd _, ?_⟩
    intro i hi
    have hlen := readFields_length dm.field_defs ff ovs ffr hre
    have hlt := dropNone_length dm.field_defs ovs i hlen.symm hi
    calc (((dm.field_defs.zip ovs).filterMap
          (fun p => p.2.map (fun v => (p.1, v)))).map Prod.fst).length
        = ((dm.field_defs.zip ovs).filterMap
          (fun p => p.2.map (fun v => (p.1, v)))).length := by
          rw [List.length_map]
      _ < dm.field_defs.length := hlt

/-- C5 (witness): the concrete sentinel scenario: a well-formed one-field
uint8 definition followed by the raw byte `0xFF` yields a data message with
no fields; plus sentinel parses for a float NaN pattern and a
NUL-terminated-empty string. -/
theorem C5_witness :
    exC5msg0.field_defs.length < exU8Dm.field_defs.length ∧
    (mkFloatType "float32" 0x88 .f).parse (.float false 0x7FC00000) = none ∧
    stringBaseType.parse (.bytes [0, 7]) = none := by
  refine ⟨?_, ?_, ?_⟩
  · exact (C5_amended.2 0 none exC5ff exU8Dm [none] exC5after exC5msg0
      exC5after rfl rfl rfl).2.2 0 rfl
  · exact C5_amended.1.2.2.2.2.2.2.2.2.2.2.2.2.2.1 0x7FC00000 (by decide)
  · exact C5_amended.1.2.2.2.2.2.2.2.2.2.2.2.2.1 [7]

/-- C5 (counterexample): a dynamic field whose raw value `0xFF` equals the
sentinel of its base type (the byte type, both as declared and after subfield
resolution) is not omitted from the decoded field list: it appears with an
absent value, even though the parse of the sentinel is absent. -/
theorem C5_counterexample :
    (DataMessage.decode exCat exSentinelMsg).map Prod.fst =
      .ok [("event", some (.label "trigger"), ""),
           ("product", none, "units2")] ∧
    BASE_TYPE_BYTE.parse (.int 255) = none := by
  exact ⟨rfl, rfl⟩

/-- A resolution-loop iteration whose index does not hold a dynamic field
(with raw-bytes value) leaves the state untouched. -/
theorem resolveStep_skip (snap : List String) (st : ResolveState) (i : Nat)
    (h : ∀ fd t, st.fds.get? i = some fd → st.items.get? i = some t →
      is_dynamic fd t.2.1 = false) :
    resolveStep snap st i = .ok st := by
  unfold resolveStep
  cases hf : st.fds.get? i with
  | none => rfl
  | some fd =>
      cases ht : st.items.get? i with
      | none => rfl
      | some t =>
          obtain ⟨nm, v, u⟩ := t
          simp [h fd (nm, v, u) hf ht]

/-- Folding the resolution step over indices that are all non-dynamic is the
identity. -/
theorem foldlM_resolve_skip (snap : List String) :
    ∀ (L : List Nat) (st : ResolveState),
      (∀ i ∈ L, ∀ fd t, st.fds.get? i = some fd →
        st.items.get? i = some t → is_dynamic fd t.2.1 = false) →
      L.foldlM (resolveStep snap) st = .ok st := by
  intro L
  induction L with
  | nil => intro st h; rfl
  | cons a L ih =>
      intro st h
      rw [List.foldlM_cons, resolveStep_skip snap st a
        (h a (List.mem_cons_self a L))]
      show L.foldlM (resolveStep snap) st = .ok st
      exact ih st (fun i hi => h i (List.mem_cons_of_mem a hi))

/-- Dropping one index from an enumerated list (the final comprehension of
`_resolve_subfields` with a single bad index) erases exactly that element. -/
theorem enumFromFilterIdx {α : Type} :
    ∀ (l : List α) (k j : Nat),
      (((List.enumFrom k l).filter (fun p => !([j].contains p.1))).map
        Prod.snd) = if j < k then l else l.eraseIdx (j - k) := by
  intro l
  induction l with
  | nil => intro k j; simp [List.enumFrom]
  | cons x xs ih =>
      intro k j
      simp only [List.enumFrom, List.filter_cons]
      by_cases hk : j = k
      · subst hk
        have hcond : (!([j].contains j)) = false := by simp [List.contains]
        rw [hcond]
        simp only [Bool.false_eq_true, if_false]
        rw [ih (j + 1) j, if_pos (by omega), if_neg (by omega)]
        simp [Nat.sub_self, List.eraseIdx]
      · have hcond : (!([j].contains k)) = true := by
          simp [List.contains]
          omega
        rw [hcond, if_pos rfl, List.map_cons]
        rw [ih (k + 1) j]
        rcases Nat.lt_trichotomy j k with hlt | heq | hgt
        · rw [if_pos hlt, if_pos (by omega)]
        · exact absurd heq hk
        · rw [if_neg (by omega), if_neg (by omega)]
          have : j - k = (j - (k + 1)) + 1 := by omega
          rw [this]
          simp [List.eraseIdx]

/-- The bad-index filter with a single bad index `j` erases the element at
`j`. -/
theorem enumFilterIdx {α : Type} (l : List α) (j : Nat) :
    ((l.enum.filter (fun p => !([j].contains p.1))).map Prod.snd) =
      l.eraseIdx j := by
  have h := enumFromFilterIdx l 0 j
  simpa [List.enum] using h

/-- The bad-index filter with no bad indices keeps the list intact. -/
theorem enumFilterNil {α : Type} (l : List α) :
    ((l.enum.filter (fun p => !(([] : List Nat).contains p.1))).map
      Prod.snd) = l := by
  have hpred : (fun p : Nat × α => !(([] : List Nat).contains p.1)) =
      fun _ => true := by
    funext p
    rfl
  rw [hpred, List.filter_true]
  exact List.enum_map_snd l

/-- Bind on a successful `Except` result. -/
theorem exceptBindOk {ε α β : Type} (a : α) (f : α → Except ε β) :
    (Except.ok a >>= f) = f a := rfl

/-- Bind on a failed `Except` result. -/
theorem exceptBindError {ε α β : Type} (e : ε) (f : α → Except ε β) :
    ((Except.error e : Except ε α) >>= f) = .error e := rfl

/-- C2 (amended): for a message whose fields are passive everywhere except a
single dynamic field at index `j` (holding raw bytes, with a nonempty
subfield table naming one reference field `r`): if `r` is not among the
decoded field names, or if the reference value lies in zero or more than one
subfield accepted set, the dynamic field alone is dropped from the output and
nothing else changes, with no error raised; if exactly one subfield accepts
the reference value, the output at `j` instead carries the subfield name and
units and the value obtained by re-parsing the stored raw bytes under the
base type looked up by the subfield NAME in the base-type registry, which
falls back to the untyped byte type when the name is not a base-type name
(the subfield declared type is not consulted) - and the field definition at
`j` is rewritten in place accordingly. -/
theorem C2_amended :
    ∀ (fds : List FieldDefinition)
      (first : List (String × Option Value × String)) (j : Nat)
      (fdj : FieldDefinition) (nmj uj : String) (raw : List Nat)
      (subs : List (String × SubfieldData)) (r : String),
      fds.length = first.length →
      (∀ (i : Nat) (fd : FieldDefinition)
         (t : String × Option Value × String), i ≠ j →
         fds.get? i = some fd → first.get? i = some t →
         is_dynamic fd t.2.1 = false) →
      fds.get? j = some fdj →
      first.get? j = some (nmj, some (.bytes raw), uj) →
      fdj.is_dynamic = true →
      fdj.data.subfields = some subs →
      single_from (subs.map (fun p => p.2.ref_field_name)) = .ok r →
      resolveSubfields fds first =
        (match (fds.map (fun fd => fd.name)).indexOf? r with
         | none => .ok (first.eraseIdx j, fds)
         | some idx =>
            match subs.filter (fun p =>
                valueMemB ((first.get? idx).bind (fun t => t.2.1))
                  p.2.ref_field_value) with
            | [(_, sd)] =>
                (FieldDefinition.readRaw
                    { fdj with name := sd.field_name,
                               base_type := (List.lookup sd.field_name
                                 BASE_TYPES_BY_NAME).getD BASE_TYPE_BYTE }
                    raw).map
                  (fun nv =>
                    (first.set j (sd.field_name, nv, sd.units.getD ""),
                     fds.set j
                       { fdj with
                           name := sd.field_name,
                           base_type := (List.lookup sd.field_name
                             BASE_TYPES_BY_NAME).getD BASE_TYPE_BYTE }))
            | _ => .ok (first.eraseIdx j, fds)) := by
  intro fds first j fdj nmj uj raw subs r hlen hpassive hj hfj hdyn hsubs
    hsingle
  have hjlt : j < fds.length := by
    by_contra hnot
    rw [List.get?_eq_none.mpr (Nat.le_of_not_lt hnot)] at hj
    exact Option.noConfusion hj
  have hrange : List.range fds.length =
      List.range j ++ j :: ((List.range (fds.length - j - 1)).map
        (fun t => j + (t + 1))) := by
    conv_lhs => rw [show fds.length = j + (fds.length - j) from by omega]
    rw [List.range_add]
    congr 1
    rw [show fds.length - j = (fds.length - j - 1) + 1 from by omega,
      List.range_succ_eq_map]
    simp [List.map_map, Function.comp]
  have hstep : resolveStep (fds.map (fun fd => fd.name))
      { items := first, fds := fds, bad := [] } j =
      (match (fds.map (fun fd => fd.name)).indexOf? r with
       | none =>
          .ok { items := first, fds := fds, bad := ([] : List Nat) ++ [j] }
       | some idx =>
          match subs.filter (fun p =>
              valueMemB ((first.get? idx).bind (fun t => t.2.1))
                p.2.ref_field_value) with
          | [(_, sd)] =>
              match FieldDefinition.readRaw
                  { fdj with name := sd.field_name,
                             base_type := (List.lookup sd.field_name
                               BASE_TYPES_BY_NAME).getD BASE_TYPE_BYTE }
                  raw with
              | .error e => .error e
              | .ok nv =>
                  .ok { items :=
                          first.set j (sd.field_name, nv, sd.units.getD ""),
                        fds := fds.set j { fdj with
                          name := sd.field_name,
                          base_type := (List.lookup sd.field_name
                            BASE_TYPES_BY_NAME).getD BASE_TYPE_BYTE },
                        bad := ([] : List Nat) }
          | _ =>
              .ok { items := first, fds := fds,
                    bad := ([] : List Nat) ++ [j] }) := by
    unfold resolveStep
    dsimp only
    rw [hj, hfj]
    dsimp only
    rw [show is_dynamic fdj (some (.bytes raw)) = true from by
      simp [is_dynamic, hdyn, Value.isBytes]]
    rw [if_pos rfl]
    rw [hsubs]
    dsimp only
    rw [hsingle]
  have hpass1 : ∀ i ∈ List.range j, ∀ (fd : FieldDefinition)
      (t : String × Option Value × String),
      ({ items := first, fds := fds, bad := [] } : ResolveState).fds.get? i =
        some fd →
      ({ items := first, fds := fds, bad := [] } : ResolveState).items.get? i =
        some t →
      is_dynamic fd t.2.1 = false := by
    intro i hi fd t hf ht
    have hilt := List.mem_range.mp hi
    exact hpassive i fd t (by omega) hf ht
  have hpassDrop : ∀ i ∈ (List.range (fds.length - j - 1)).map
      (fun t => j + (t + 1)), ∀ (fd : FieldDefinition)
      (t : String × Option Value × String),
      ({ items := first, fds := fds, bad := [] ++ [j] } :
        ResolveState).fds.get? i = some fd →
      ({ items := first, fds := fds, bad := [] ++ [j] } :
        ResolveState).items.get? i = some t →
      is_dynamic fd t.2.1 = false := by
    intro i hi fd t hf ht
    simp only [List.mem_map, List.mem_range] at hi
    obtain ⟨t0, -, rfl⟩ := hi
    exact hpassive _ fd t (by omega) hf ht
  unfold resolveSubfields
  dsimp only
  cases hidx : (fds.map (fun fd => fd.name)).indexOf? r with
  | none =>
      have hstep1 : resolveStep (fds.map (fun fd => fd.name))
          { items := first, fds := fds, bad := [] } j =
          .ok { items := first, fds := fds, bad := [] ++ [j] } := by
        rw [hstep, hidx]
      have hfold : (List.range fds.length).foldlM
          (resolveStep (fds.map (fun fd => fd.name)))
          { items := first, fds := fds, bad := [] } =
          .ok { items := first, fds := fds, bad := [] ++ [j] } := by
        rw [hrange, List.foldlM_append, foldlM_resolve_skip _ _ _ hpass1,
          exceptBindOk, List.foldlM_cons, hstep1, exceptBindOk]
        exact foldlM_resolve_skip _ _ _ hpassDrop
      rw [hfold]
      dsimp only
      rw [List.nil_append, enumFilterIdx]
  | some idx =>
      cases hmatch : subs.filter (fun p =>
          valueMemB ((first.get? idx).bind (fun t => t.2.1))
            p.2.ref_field_value) with
      | nil =>
          have hstep1 : resolveStep (fds.map (fun fd => fd.name))
              { items := first, fds := fds, bad := [] } j =
              .ok { items := first, fds := fds, bad := [] ++ [j] } := by
            rw [hstep, hidx]
            dsimp only
            rw [hmatch]
          have hfold : (List.range fds.length).foldlM
              (resolveStep (fds.map (fun fd => fd.name)))
              { items := first, fds := fds, bad := [] } =
              .ok { items := first, fds := fds, bad := [] ++ [j] } := by
            rw [hrange, List.foldlM_append, foldlM_resolve_skip _ _ _ hpass1,
              exceptBindOk, List.foldlM_cons, hstep1, exceptBindOk]
            exact foldlM_resolve_skip _ _ _ hpassDrop
          rw [hfold]
          dsimp only
          rw [List.nil_append, enumFilterIdx, hmatch]
      | cons hd tl =>
          obtain ⟨k, sd⟩ := hd
          cases tl with
          | nil =>
              cases hrr : FieldDefinition.readRaw
                  { fdj with name := sd.field_name,
                             base_type := (List.lookup sd.field_name
                               BASE_TYPES_BY_NAME).getD BASE_TYPE_BYTE }
                  raw with
              | error e =>
                  have hstep1 : resolveStep (fds.map (fun fd => fd.name))
                      { items := first, fds := fds, bad := [] } j =
                      .error e := by
                    rw [hstep, hidx]
                    dsimp only
                    rw [hmatch]
                    dsimp only
                    rw [hrr]
                  have hfold : (List.range fds.length).foldlM
                      (resolveStep (fds.map (fun fd => fd.name)))
                      { items := first, fds := fds, bad := [] } =
                      .error e := by
                    rw [hrange, List.foldlM_append,
                      foldlM_resolve_skip _ _ _ hpass1, exceptBindOk,
                      List.foldlM_cons, hstep1, exceptBindError]
                  rw [hfold]
                  dsimp only
                  rw [hmatch]
                  dsimp only
                  rw [hrr]
                  rfl
              | ok nv =>
                  have hstep1 : resolveStep (fds.map (fun fd => fd.name))
                      { items := first, fds := fds, bad := [] } j =
                      .ok { items :=
                              first.set j (sd.field_name, nv,
                                sd.units.getD ""),
                            fds := fds.set j { fdj with
                              name := sd.field_name,
                              base_type := (List.lookup sd.field_name
                                BASE_TYPES_BY_NAME).getD BASE_TYPE_BYTE },
                            bad := [] } := by
                    rw [hstep, hidx]
                    dsimp only
                    rw [hmatch]
                    dsimp only
                    rw [hrr]
                  have hpass2 : ∀ i ∈ (List.range (fds.length - j - 1)).map
                      (fun t => j + (t + 1)), ∀ (fd : FieldDefinition)
                      (t : String × Option Value × String),
                      ({ items := first.set j (sd.field_name, nv,
                            sd.units.getD ""),
                         fds := fds.set j { fdj with
                           name := sd.field_name,
                           base_type := (List.lookup sd.field_name
                             BASE_TYPES_BY_NAME).getD BASE_TYPE_BYTE },
                         bad := [] } : ResolveState).fds.get? i = some fd →
                      ({ items := first.set j (sd.field_name, nv,
                            sd.units.getD ""),
                         fds := fds.set j { fdj with
                           name := sd.field_name,
                           base_type := (List.lookup sd.field_name
                             BASE_TYPES_BY_NAME).getD BASE_TYPE_BYTE },
                         bad := [] } : ResolveState).items.get? i = some t →
                      is_dynamic fd t.2.1 = false := by
                    intro i hi fd t hf ht
                    simp only [List.mem_map, List.mem_range] at hi
                    obtain ⟨t0, -, rfl⟩ := hi
                    dsimp only at hf ht
                    rw [List.get?_set_ne _ _ (by omega)] at hf
                    rw [List.get?_set_ne _ _ (by omega)] at ht
                    exact hpassive _ fd t (by omega) hf ht
                  have hfold : (List.range fds.length).foldlM
                      (resolveStep (fds.map (fun fd => fd.name)))
                      { items := first, fds := fds, bad := [] } =
                      .ok { items :=
                              first.set j (sd.field_name, nv,
                                sd.units.getD ""),
                            fds := fds.set j { fdj with
                              name := sd.field_name,
                              base_type := (List.lookup sd.field_name
                                BASE_TYPES_BY_NAME).getD BASE_TYPE_BYTE },
                            bad := [] } := by
                    rw [hrange, List.foldlM_append,
                      foldlM_resolve_skip _ _ _ hpass1, exceptBindOk,
                      List.foldlM_cons, hstep1, exceptBindOk]
                    exact foldlM_resolve_skip _ _ _ hpass2
                  rw [hfold]
                  dsimp only
                  rw [enumFilterNil, hmatch]
                  dsimp only
                  rw [hrr]
                  rfl
          | cons hd2 tl2 =>
              have hstep1 : resolveStep (fds.map (fun fd => fd.name))
                  { items := first, fds := fds, bad := [] } j =
                  .ok { items := first, fds := fds, bad := [] ++ [j] } := by
                rw [hstep, hidx]
                dsimp only
                rw [hmatch]
              have hfold : (List.range fds.length).foldlM
                  (resolveStep (fds.map (fun fd => fd.name)))
                  { items := first, fds := fds, bad := [] } =
                  .ok { items := first, fds := fds, bad := [] ++ [j] } := by
                rw [hrange, List.foldlM_append,
                  foldlM_resolve_skip _ _ _ hpass1, exceptBindOk,
                  List.foldlM_cons, hstep1, exceptBindOk]
                exact foldlM_resolve_skip _ _ _ hpassDrop
              rw [hfold]
              dsimp only
              rw [List.nil_append, enumFilterIdx, hmatch]

/-- C2 (witness): the amended theorem at the concrete dynamic message: the
reference field `event` decodes to `trigger`, exactly one subfield accepts
it, and the dynamic field re-parses (under the byte fallback) to 0. -/
theorem C2_witness :
    resolveSubfields exDynFds exDynFirst =
      .ok ([("event", some (.label "trigger"), ""),
            ("product", some (.int 0), "units2")],
        [exEventFd, exDynFdRes]) := by
  rw [C2_amended exDynFds exDynFirst 1 exDynFd "data" "u" [0, 1]
    [("gear_change_data", productSubfield)] "event" rfl ?hp rfl rfl rfl rfl
    rfl]
  case hp =>
    intro i fd t hne hf ht
    match i, hne, hf, ht with
    | 0, _, hf, ht =>
        cases hf
        cases ht
        rfl
    | 1, hne, _, _ => exact absurd rfl hne
    | n + 2, _, hf, _ => exact Option.noConfusion hf
  rfl

/-- C2 (counterexample): the resolved value is 0, obtained by re-parsing the
raw bytes `00 01` under the byte fallback selected by the subfield NAME
(`product` is not a base-type name); re-parsing under the subfield declared
own base type (uint16, per the catalog `field_type`) would give 256, so the
claim as stated is false on the code. -/
theorem C2_counterexample :
    (resolveSubfields exDynFds exDynFirst).map Prod.fst =
      .ok [("event", some (.label "trigger"), ""),
           ("product", some (.int 0), "units2")] ∧
    subfieldSpecReparse exDynFd productSubfield [0, 1] =
      .ok (some (.int 256)) ∧
    (Value.int 0 ≠ Value.int 256) := by
  exact ⟨rfl, rfl, by decide⟩

end ActivityFit

